import Mathlib

/-!
Verification of the geometric-resampling core of monai/transforms/transforms.py:
AffineGrid, RandAffineGrid, RandDeformGrid, Resample and the orchestrators Affine,
RandAffine, Rand2DElastic, Rand3DElastic.

Modelling conventions:
* all numeric values are exact rationals (ℚ); float casts in the source are dropped;
* images and coordinate grids are channel-first functions over Fin index spaces
  (Image2 C H W, Grid2 H W for the 2-D case, Image3 / Grid3 for 3-D), mirroring the
  (C, *spatial) and (D+1, *spatial) array layouts of the source;
* the seeded random source (monai Randomizable, an external collaborator per the spec)
  is a stream g : ℕ → ℚ of raw draws consumed left to right; uniform(low, high)
  applied to a raw draw u in [0,1) is low + (high-low)*u, and normal(shape) hands the
  raw draw values through as the sampled field;
* torch.nn.functional.grid_sample is modelled from its documented contract with
  align_corners=False (pixel centres at -1 and 1 are unnormalized by
  ix = ((x+1)*size-1)/2); nearest rounding is round-half-to-even (std::nearbyint);
* builders that are code of this repository but not under src/ (create_grid,
  create_control_grid, create_rotate, create_shear, create_translate, create_scale,
  ensure_tuple) are modelled from the spec; each such definition carries a doc comment
  starting with "Modelled from the spec".
-/

namespace Monai

/-- One value drawn by numpy-style uniform(low, high) applied to the raw draw at
stream position k. -/
def drawUniform (g : ℕ → ℚ) (k : ℕ) (low high : ℚ) : ℚ := low + (high - low) * g k

/-- A Python optional parameter group as accepted by AffineGrid: None, a scalar, or a
sequence of floats. -/
inductive PyParam where
  | none
  | scalar (x : ℚ)
  | seq (xs : List ℚ)
deriving DecidableEq

/-- Python truthiness of a parameter group, as tested by the if statements of
AffineGrid.__call__ (transforms.py lines 322-328): None, the scalar 0 and the empty
sequence are falsy. -/
def PyParam.truthy : PyParam → Bool
  | PyParam.none => false
  | PyParam.scalar x => x ≠ 0
  | PyParam.seq xs => !xs.isEmpty

/-- The float list a parameter group denotes when handed to a matrix builder. -/
def PyParam.toList : PyParam → List ℚ
  | PyParam.none => []
  | PyParam.scalar x => [x]
  | PyParam.seq xs => xs

/-- Modelled from the spec: the Affine Matrix Builder lives in
monai/transforms/utils.py, which is not under src/; the spec fixes only the contract
rotate(D, params) -> (D+1) x (D+1) homogeneous matrix. Trigonometric entries use a
truncated Taylor series as a computable stand-in for cosine; no claim depends on
these numeric values. -/
def cosQ (x : ℚ) : ℚ :=
  Finset.sum (Finset.range 8) fun k => (-1) ^ k * x ^ (2 * k) / (Nat.factorial (2 * k) : ℚ)

/-- Modelled from the spec: computable stand-in for sine, see cosQ. -/
def sinQ (x : ℚ) : ℚ :=
  Finset.sum (Finset.range 8) fun k => (-1) ^ k * x ^ (2 * k + 1) / (Nat.factorial (2 * k + 1) : ℚ)

/-- Homogeneous 2-D rotation matrix by angle t. -/
def rotMat2 (t : ℚ) : Matrix (Fin 3) (Fin 3) ℚ :=
  Matrix.of fun i j =>
    if i.val = 0 ∧ j.val = 0 then cosQ t
    else if i.val = 0 ∧ j.val = 1 then -sinQ t
    else if i.val = 1 ∧ j.val = 0 then sinQ t
    else if i.val = 1 ∧ j.val = 1 then cosQ t
    else if i = j then 1 else 0

/-- Homogeneous 3-D rotation about the first axis by angle t. -/
def rotX3 (t : ℚ) : Matrix (Fin 4) (Fin 4) ℚ :=
  Matrix.of fun i j =>
    if i.val = 1 ∧ j.val = 1 then cosQ t
    else if i.val = 1 ∧ j.val = 2 then -sinQ t
    else if i.val = 2 ∧ j.val = 1 then sinQ t
    else if i.val = 2 ∧ j.val = 2 then cosQ t
    else if i = j then 1 else 0

/-- Homogeneous 3-D rotation about the second axis by angle t. -/
def rotY3 (t : ℚ) : Matrix (Fin 4) (Fin 4) ℚ :=
  Matrix.of fun i j =>
    if i.val = 0 ∧ j.val = 0 then cosQ t
    else if i.val = 0 ∧ j.val = 2 then sinQ t
    else if i.val = 2 ∧ j.val = 0 then -sinQ t
    else if i.val = 2 ∧ j.val = 2 then cosQ t
    else if i = j then 1 else 0

/-- Modelled from the spec: create_rotate(D, params) of the Affine Matrix Builder
(monai/transforms/utils.py, not under src/). 2-D: one angle; 3-D: two angles
(see the Affine docstring), realized as a product of two axis rotations. Unsupported
ranks yield the identity. -/
def createRotate : (D : ℕ) → List ℚ → Matrix (Fin (D + 1)) (Fin (D + 1)) ℚ
  | 2, ps => rotMat2 (ps.getD 0 0)
  | 3, ps => rotX3 (ps.getD 0 0) * rotY3 (ps.getD 1 0)
  | _, _ => 1

/-- Modelled from the spec: create_shear(D, params) -- off-diagonal shear
coefficients (2 in 2-D, 6 in 3-D per the Affine docstring). -/
def createShear : (D : ℕ) → List ℚ → Matrix (Fin (D + 1)) (Fin (D + 1)) ℚ
  | 2, ps => Matrix.of fun i j =>
      if i.val = 0 ∧ j.val = 1 then ps.getD 0 0
      else if i.val = 1 ∧ j.val = 0 then ps.getD 1 0
      else if i = j then 1 else 0
  | 3, ps => Matrix.of fun i j =>
      if i.val = 0 ∧ j.val = 1 then ps.getD 0 0
      else if i.val = 0 ∧ j.val = 2 then ps.getD 1 0
      else if i.val = 1 ∧ j.val = 0 then ps.getD 2 0
      else if i.val = 1 ∧ j.val = 2 then ps.getD 3 0
      else if i.val = 2 ∧ j.val = 0 then ps.getD 4 0
      else if i.val = 2 ∧ j.val = 1 then ps.getD 5 0
      else if i = j then 1 else 0
  | _, _ => 1

/-- Modelled from the spec: create_translate(D, params) -- identity with the offsets
in the last (homogeneous) column. -/
def createTranslate (D : ℕ) (ps : List ℚ) : Matrix (Fin (D + 1)) (Fin (D + 1)) ℚ :=
  Matrix.of fun i j =>
    if i = j then 1 else if j.val = D ∧ i.val < D then ps.getD i.val 0 else 0

/-- Modelled from the spec: create_scale(D, params) -- diagonal scaling factors
(missing factors default to 1), homogeneous entry 1. -/
def createScale (D : ℕ) (ps : List ℚ) : Matrix (Fin (D + 1)) (Fin (D + 1)) ℚ :=
  Matrix.of fun i j =>
    if i = j then (if i.val < D then ps.getD i.val 1 else 1) else 0

/-- The affine matrix composed by AffineGrid.__call__ (transforms.py lines 321-330):
start from the identity and right-multiply by each builder matrix whose parameter
group is truthy, in the fixed order rotate, shear, translate, scale. -/
def affineMatrix (D : ℕ) (rotateParams shearParams translateParams scaleParams : PyParam) :
    Matrix (Fin (D + 1)) (Fin (D + 1)) ℚ :=
  let a : Matrix (Fin (D + 1)) (Fin (D + 1)) ℚ := 1
  let a := if rotateParams.truthy then a * createRotate D rotateParams.toList else a
  let a := if shearParams.truthy then a * createShear D shearParams.toList else a
  let a := if translateParams.truthy then a * createTranslate D translateParams.toList else a
  let a := if scaleParams.truthy then a * createScale D scaleParams.toList else a
  a

/-- Claim C3: for every combination of parameter groups, AffineGrid composes its
affine matrix as the product of a rotate, a shear, a translate and a scale factor,
in exactly that order, where a group that is None, a zero scalar or an empty
sequence (Python-falsy) contributes an identity factor; in particular an empty
sequence behaves exactly like None. -/
theorem affineMatrix_fixed_composition_order (D : ℕ) (r sh t sc : PyParam) :
    affineMatrix D r sh t sc =
      (if r.truthy then createRotate D r.toList else 1) *
        ((if sh.truthy then createShear D sh.toList else 1) *
          ((if t.truthy then createTranslate D t.toList else 1) *
            (if sc.truthy then createScale D sc.toList else 1))) ∧
    affineMatrix D (PyParam.seq []) sh t sc = affineMatrix D PyParam.none sh t sc := by
  constructor
  · cases hr : r.truthy <;> cases hsh : sh.truthy <;> cases ht : t.truthy <;>
      cases hsc : sc.truthy <;>
      simp [affineMatrix, hr, hsh, ht, hsc, Matrix.mul_assoc]
  · simp [affineMatrix, PyParam.truthy]

/-- Interpolation mode of Resample / grid_sample. -/
inductive InterpMode where
  | bilinear
  | nearest
deriving DecidableEq

/-- Padding mode of Resample / grid_sample. -/
inductive PadMode where
  | zeros
  | border
  | reflection
deriving DecidableEq

/-- Channel-first 2-D image of shape (C, H, W). -/
def Image2 (C H W : ℕ) := Fin C → Fin H → Fin W → ℚ

/-- Homogeneous 2-D coordinate grid of shape (3, H, W). -/
def Grid2 (H W : ℕ) := Fin 3 → Fin H → Fin W → ℚ

/-- Modelled from the spec: create_grid (monai/transforms/utils.py, not under src/),
the Coordinate Grid Builder. It returns a homogeneous grid of shape (D+1, *size)
whose i-th coordinate row holds the image-centred index idx - (size_i - 1)/2 at unit
spacing and whose last row is all ones; centring is forced by the spec, whose
Resample normalization 2*g/(size_i - 1) must land in [-1, 1], and by the Affine
docstring (translation is relative to the image centre). -/
def createGrid2 (H W : ℕ) : Grid2 H W := fun r h w =>
  if r.val = 0 then (h.val : ℚ) - ((H : ℚ) - 1) / 2
  else if r.val = 1 then (w.val : ℚ) - ((W : ℚ) - 1) / 2
  else 1

/-- AffineGrid.__call__ applied to a 2-D grid (transforms.py lines 332-339): multiply
the composed affine matrix against the grid flattened over its spatial axes and
reshape back, which is pointwise a matrix-vector product at every spatial position. -/
def affineGrid2 {H W : ℕ} (r sh t sc : PyParam) (grid : Grid2 H W) : Grid2 H W :=
  fun i h w => Finset.univ.sum fun k : Fin 3 => affineMatrix 2 r sh t sc i k * grid k h w

/-- Round half to even, the rounding used by grid_sample nearest mode
(std::nearbyint under the default rounding mode). -/
def roundHalfEven (x : ℚ) : ℤ :=
  if x - ⌊x⌋ < 1 / 2 then ⌊x⌋
  else if 1 / 2 < x - ⌊x⌋ then ⌊x⌋ + 1
  else if 2 ∣ ⌊x⌋ then ⌊x⌋ else ⌊x⌋ + 1

/-- align_corners=False unnormalization of grid_sample: normalized x in [-1, 1]
is mapped to the pixel-space position ((x+1)*size - 1)/2 (pixel centres, not
corners, sit half a pixel inside the extremes). -/
def unnormalize (size : ℕ) (x : ℚ) : ℚ := ((x + 1) * size - 1) / 2

/-- Rational fmod used by reflection padding. -/
def qmod (a b : ℚ) : ℚ := a - b * ⌊a / b⌋

/-- torch reflect_coordinates for align_corners=False: fold the unnormalized
coordinate into the span [-1/2, size - 1/2]. -/
def reflectCoord (size : ℕ) (x : ℚ) : ℚ :=
  if size = 0 then 0
  else
    let y := |x + 1 / 2|
    let extra := qmod y (size : ℚ)
    if 2 ∣ ⌊y / (size : ℚ)⌋ then extra - 1 / 2 else (size : ℚ) - extra - 1 / 2

/-- Clamp an unnormalized coordinate into [0, size - 1] (torch clip_coordinates). -/
def clampCoord (size : ℕ) (x : ℚ) : ℚ := min (max x 0) ((size : ℚ) - 1)

/-- grid_sample's computed source position along one axis, by padding mode: zeros
samples the raw position, border clamps it, reflection folds then clamps. -/
def sourceIndex (pad : PadMode) (size : ℕ) (x : ℚ) : ℚ :=
  match pad with
  | PadMode.zeros => unnormalize size x
  | PadMode.border => clampCoord size (unnormalize size x)
  | PadMode.reflection => clampCoord size (reflectCoord size (unnormalize size x))

/-- Bounds-checked pixel fetch of torch grid_sample (within_bounds_2d): out-of-range
reads contribute zero, which together with mode zeros realizes zero padding. -/
def pix2 {C H W : ℕ} (img : Image2 C H W) (c : Fin C) (iy ix : ℤ) : ℚ :=
  if h : 0 ≤ iy ∧ iy < (H : ℤ) ∧ 0 ≤ ix ∧ ix < (W : ℤ) then
    img c ⟨iy.toNat, by omega⟩ ⟨ix.toNat, by omega⟩
  else 0

/-- torch.nn.functional.grid_sample (2-D), modelled from its documented contract with
align_corners=False: cell (h, w) of coords carries normalized (x, y), x indexing the
innermost image axis W. Bilinear blends the four surrounding pixels; nearest takes
the round-half-to-even neighbour. -/
def gridSample2 {C H W Oh Ow : ℕ} (img : Image2 C H W)
    (coords : Fin Oh → Fin Ow → ℚ × ℚ) (mode : InterpMode) (pad : PadMode) :
    Image2 C Oh Ow := fun c h w =>
  let ix := sourceIndex pad W (coords h w).1
  let iy := sourceIndex pad H (coords h w).2
  match mode with
  | InterpMode.bilinear =>
      let x0 := ⌊ix⌋
      let y0 := ⌊iy⌋
      let tx := ix - x0
      let ty := iy - y0
      (1 - ty) * ((1 - tx) * pix2 img c y0 x0 + tx * pix2 img c y0 (x0 + 1)) +
        ty * ((1 - tx) * pix2 img c (y0 + 1) x0 + tx * pix2 img c (y0 + 1) (x0 + 1))
  | InterpMode.nearest => pix2 img c (roundHalfEven iy) (roundHalfEven ix)

/-- Resample.__call__ (transforms.py lines 464-491), 2-D instance. The result pairs
the resampled image with the buffer the caller's grid variable denotes after the
call: the normalization loop (lines 479-480) assigns grid[i] in place for each image
spatial axis, so a caller passing a torch tensor with no device transfer observes
the normalized rows, while a numpy grid is copied by torch.tensor (line 474) and a
truthy device copies on transfer (line 477). The homogeneous division (line 481),
the row reversal (line 482) and the permute (line 483) rebind the local name to
fresh tensors and are invisible to the caller. -/
def resample2Run {C H W Oh Ow : ℕ} (img : Image2 C H W) (grid : Grid2 Oh Ow)
    (mode : InterpMode) (pad : PadMode) (isTensor deviceSet : Bool) :
    Image2 C Oh Ow × Grid2 Oh Ow :=
  let g1 : Grid2 Oh Ow := fun r h w =>
    if r.val = 0 then 2 * grid r h w / ((H : ℚ) - 1)
    else if r.val = 1 then 2 * grid r h w / ((W : ℚ) - 1)
    else grid r h w
  let g2 : Fin 2 → Fin Oh → Fin Ow → ℚ := fun r h w =>
    g1 (Fin.castLE (by omega) r) h w / g1 2 h w
  let g3 : Fin 2 → Fin Oh → Fin Ow → ℚ := fun r h w => g2 ⟨1 - r.val, by omega⟩ h w
  let coords : Fin Oh → Fin Ow → ℚ × ℚ := fun h w => (g3 0 h w, g3 1 h w)
  (gridSample2 img coords mode pad, if isTensor && !deviceSet then g1 else grid)

/-- Resample.__call__ resampled image (first component of resample2Run). -/
def resample2 {C H W Oh Ow : ℕ} (img : Image2 C H W) (grid : Grid2 Oh Ow)
    (mode : InterpMode) (pad : PadMode) : Image2 C Oh Ow :=
  (resample2Run img grid mode pad true false).1

/-- Affine.__call__ (transforms.py lines 534-544), 2-D: build the identity grid for
the requested output size, transform it with AffineGrid, then resample. -/
def affineCall2 {C H W : ℕ} (r sh t sc : PyParam) (pad : PadMode) (img : Image2 C H W)
    (Oh Ow : ℕ) (mode : InterpMode) : Image2 C Oh Ow :=
  resample2 img (affineGrid2 r sh t sc (createGrid2 Oh Ow)) mode pad

/-- With every parameter group Python-falsy the composed affine is the identity
matrix and AffineGrid returns the grid unchanged. -/
theorem affineGrid2_falsy {H W : ℕ} (grid : Grid2 H W) :
    affineGrid2 (PyParam.scalar 0) PyParam.none PyParam.none PyParam.none grid = grid := by
  funext i h w
  fin_cases i <;>
    simp [affineGrid2, affineMatrix, PyParam.truthy, Matrix.one_apply, Fin.sum_univ_three]

/-- Image whose pixels are all one. -/
def ones2 (C H W : ℕ) : Image2 C H W := fun _ _ _ => 1

/-- Border attenuation factor of the buggy identity resampling on a length-4 axis:
the in-bounds bilinear mass at source positions 4*i/3 - 1/2. -/
def c1Axis : Fin 4 → ℚ := ![1/2, 1, 1, 1/2]

/-- Claim C1 (code bug witness): Affine(rotate_params=0, scale_params=None) at output
size (4,4) with the default bilinear mode does not return the (1,4,4) all-ones image
unchanged. The composed affine is the identity, but pairing the (dim-1)
normalization with align_corners=False places the source position for output index i
at 4*i/3 - 1/2, so border pixels blend with zero padding: the output is the outer
product of the axis factor [1/2, 1, 1, 1/2] and the corners become 1/4. -/
theorem affine_identity_attenuates_borders :
    affineCall2 (PyParam.scalar 0) PyParam.none PyParam.none PyParam.none PadMode.zeros
      (ones2 1 4 4) 4 4 InterpMode.bilinear = fun _ h w => c1Axis h * c1Axis w := by
  rw [affineCall2, affineGrid2_falsy]
  funext c h w
  fin_cases h <;> fin_cases w <;>
    norm_num [resample2, resample2Run, gridSample2, sourceIndex, unnormalize,
      createGrid2, pix2, ones2, c1Axis]

/-- Claim C2 (code bug witness): Resample with the identity grid built directly by
the Coordinate Grid Builder and nearest mode does not return the input unchanged
when a spatial size is even: on a (1,2,2) all-ones image the source position along
each axis for index 1 is 1.5, which rounds to the out-of-bounds index 2 and is
zero-padded, so only the (0,0) pixel survives. -/
theorem resample_identity_grid_nearest_not_identity :
    resample2 (ones2 1 2 2) (createGrid2 2 2) InterpMode.nearest PadMode.zeros =
      (fun _ h w => if h.val = 0 ∧ w.val = 0 then 1 else 0) ∧
    ones2 1 2 2 0 1 1 = 1 := by
  constructor
  · funext c h w
    fin_cases c
    fin_cases h <;> fin_cases w <;>
      norm_num [resample2, resample2Run, gridSample2, sourceIndex, unnormalize,
        createGrid2, pix2, ones2, roundHalfEven]
  · rfl

/-- Claim C9 (amended): after Resample.__call__, a caller who passed the grid as a
torch tensor with no device transfer observes rows 0..D-1 overwritten in place with
their normalized values 2*grid[i]/(dim_i - 1) (the homogeneous row is untouched; the
homogeneous division happens on a fresh tensor), while a numpy grid is copied and
the caller's array is unchanged, as is a tensor copied by a device transfer. The
mutated values need not differ from the originals, see
resample_tensor_grid_can_be_unchanged. -/
theorem resample_mutates_tensor_grid {C H W Oh Ow : ℕ} (img : Image2 C H W)
    (grid : Grid2 Oh Ow) (mode : InterpMode) (pad : PadMode) (deviceSet : Bool) :
    (resample2Run img grid mode pad true false).2 =
      (fun r h w =>
        if r.val = 0 then 2 * grid r h w / ((H : ℚ) - 1)
        else if r.val = 1 then 2 * grid r h w / ((W : ℚ) - 1)
        else grid r h w) ∧
    (resample2Run img grid mode pad false deviceSet).2 = grid ∧
    (resample2Run img grid mode pad true true).2 = grid := by
  refine ⟨rfl, ?_, rfl⟩
  simp [resample2Run]

/-- Claim C9 counterexample: for a (1,3,3) image the normalization 2*g/(3-1) is the
identity map, so the caller's tensor grid holds exactly the same values after the
call: the claim that the caller's grid always differs afterwards is false. -/
theorem resample_tensor_grid_can_be_unchanged :
    (resample2Run (ones2 1 3 3) (createGrid2 3 3) InterpMode.bilinear PadMode.zeros
      true false).2 = createGrid2 3 3 := by
  funext r h w
  fin_cases r <;> simp [resample2Run, createGrid2] <;> ring

/-- Shape-level projection of Resample.__call__ (transforms.py lines 464-491): given
the image shape (C, *spatial) and grid shape (rows, *gspatial), return the output
shape or the first error the call raises. The loop of line 479 reads grid[i] for
every image spatial axis i, and line 482 selects rows spatial.length-1 .. 0 from the
rows-1 rows left by the homogeneous division, so both fail with IndexError when
rows <= spatial.length; torch grid_sample then requires matching 4-D or 5-D input
and grid, i.e. gspatial.length = spatial.length with spatial rank 2 or 3. Extra
leading rows (rows > spatial.length + 1) are silently dropped by the row select. -/
def resampleCheck (imgShape gridShape : List ℕ) : Except String (List ℕ) :=
  match imgShape, gridShape with
  | c :: spatial, rows :: gspatial =>
      if rows ≤ spatial.length then
        Except.error "IndexError: grid row index out of range"
      else if gspatial.length ≠ spatial.length then
        Except.error "grid_sampler: input and grid must have the same spatial rank"
      else if spatial.length = 2 ∨ spatial.length = 3 then Except.ok (c :: gspatial)
      else Except.error "grid_sampler: expected 4D or 5D input and grid"
  | _, _ => Except.error "unsupported image or grid shape"

/-- Whether the shape-level call raises. -/
def isErr (e : Except String (List ℕ)) : Bool :=
  match e with
  | Except.error _ => true
  | Except.ok _ => false

/-- Claim C7 counterexample: an image of spatial rank 2 with a grid of coordinate
rank 3 (leading-axis length 4) whose trailing rank matches is not rejected: the row
select keeps rows 1 and 0, silently dropping the extra coordinate row, and the call
succeeds with an output shape. -/
theorem resample_rank_mismatch_not_rejected :
    resampleCheck [1, 2, 2] [4, 2, 2] = Except.ok [1, 2, 2] ∧ (2 : ℕ) ≠ 4 - 1 := by
  exact ⟨rfl, by decide⟩

/-- Claim C7 (amended): Resample rejects a grid with at most as many leading rows as
the image's spatial rank (IndexError in the normalization loop or the row select),
and rejects a grid whose trailing spatial rank differs from the image's (grid_sample
shape check); but a grid with more than spatial-rank+1 leading rows and matching
trailing rank is accepted, silently dropping the extra coordinate rows. -/
theorem resampleCheck_rank_handling (c rows : ℕ) (spatial gspatial : List ℕ) :
    (rows ≤ spatial.length →
      isErr (resampleCheck (c :: spatial) (rows :: gspatial)) = true) ∧
    (gspatial.length ≠ spatial.length →
      isErr (resampleCheck (c :: spatial) (rows :: gspatial)) = true) ∧
    (spatial.length + 1 < rows → gspatial.length = spatial.length →
      (spatial.length = 2 ∨ spatial.length = 3) →
      resampleCheck (c :: spatial) (rows :: gspatial) = Except.ok (c :: gspatial)) := by
  refine ⟨?_, ?_, ?_⟩
  · intro h
    simp [resampleCheck, h, isErr]
  · intro h
    by_cases hr : rows ≤ spatial.length <;> simp [resampleCheck, h, hr, isErr]
  · intro h1 h2 h3
    have hr : ¬ rows ≤ spatial.length := by omega
    simp [resampleCheck, hr, h2, h3]

/-- Concrete instances of resampleCheck_rank_handling: a 3-row grid on a 3-D image
raises, a rank-3 grid on a rank-2 image raises, and a 5-row rank-2 grid on a rank-2
image succeeds by dropping rows. -/
theorem resampleCheck_rank_handling_instances :
    isErr (resampleCheck [1, 2, 2] [2, 2, 2]) = true ∧
    isErr (resampleCheck [1, 2, 2] [3, 2, 2, 2]) = true ∧
    resampleCheck [1, 2, 2] [5, 2, 2] = Except.ok [1, 2, 2] :=
  ⟨(resampleCheck_rank_handling 1 2 [2, 2] [2, 2]).1 (by decide),
    (resampleCheck_rank_handling 1 3 [2, 2] [2, 2, 2]).2.1 (by decide),
    (resampleCheck_rank_handling 1 5 [2, 2] [2, 2]).2.2 (by decide) (by decide)
      (by decide)⟩

/-- A float computation result: a finite value, or non-finite (infinity or NaN). -/
inductive FloatVal where
  | finite (x : ℚ)
  | nonfinite
deriving DecidableEq

/-- IEEE-flavoured division: dividing by zero yields a non-finite value (an infinity
when the numerator is nonzero, NaN for 0/0); otherwise the exact quotient. -/
def fdiv (x y : ℚ) : FloatVal :=
  if y = 0 then FloatVal.nonfinite else FloatVal.finite (x / y)

/-- The in-place normalization loop of Resample.__call__ (lines 479-480) on the grid
rows, with IEEE-flavoured division: row i over image spatial dim d becomes
2*row/(d - 1); rows beyond the image's spatial rank are untouched. -/
def normalizeRows (spatialDims : List ℕ) (rows : List (List ℚ)) : List (List FloatVal) :=
  rows.mapIdx fun i row =>
    match spatialDims.get? i with
    | Option.some d => row.map fun x => fdiv (2 * x) ((d : ℚ) - 1)
    | Option.none => row.map FloatVal.finite

/-- Index access through mapIdx. -/
theorem get_mapIdx {α β : Type} (f : ℕ → α → β) :
    ∀ (l : List α) (i : ℕ), (l.mapIdx f).get? i = (l.get? i).map (f i) := by
  intro l
  induction l generalizing f with
  | nil => intro i; simp
  | cons a l ih =>
      intro i
      cases i with
      | zero => simp [List.mapIdx_cons]
      | succ j =>
          simp only [List.mapIdx_cons, List.get?_cons_succ]
          exact ih (fun i => f (i + 1)) j

/-- Claim C10: an image with some spatial dimension equal to 1 makes the coordinate
normalization divide by dim - 1 = 0, so every coordinate of the corresponding grid
row becomes non-finite; yet the call is not rejected -- the shape-level call returns
the well-defined output shape (C, *spatial). -/
theorem resample_degenerate_dim_no_validation (c i : ℕ) (spatial : List ℕ)
    (rows : List (List ℚ)) (row : List ℚ)
    (hrank : spatial.length = 2 ∨ spatial.length = 3)
    (hdim : spatial.get? i = Option.some 1)
    (hrow : rows.get? i = Option.some row) :
    resampleCheck (c :: spatial) ((spatial.length + 1) :: spatial) =
      Except.ok (c :: spatial) ∧
    (normalizeRows spatial rows).get? i =
      Option.some (List.replicate row.length FloatVal.nonfinite) := by
  constructor
  · have h1 : ¬ (spatial.length + 1 ≤ spatial.length) := by omega
    simp [resampleCheck, h1, hrank]
  · have hdim2 : spatial[i]? = Option.some 1 := by
      simpa [List.get?_eq_getElem?] using hdim
    have hrow2 : rows[i]? = Option.some row := by
      simpa [List.get?_eq_getElem?] using hrow
    simp [normalizeRows, get_mapIdx, List.get?_eq_getElem?, hrow2, hdim2, fdiv]

/-- Concrete instance of resample_degenerate_dim_no_validation at image shape
(1,1,4): the call is accepted and row 0 normalizes to non-finite coordinates. -/
theorem resample_degenerate_dim_no_validation_instance :
    resampleCheck [1, 1, 4] [3, 1, 4] = Except.ok [1, 1, 4] ∧
    (normalizeRows [1, 4] [[1, 2], [3]]).get? 0 =
      Option.some [FloatVal.nonfinite, FloatVal.nonfinite] := by
  have h := resample_degenerate_dim_no_validation 1 0 [1, 4] [[1, 2], [3]] [1, 2]
    (by norm_num) rfl rfl
  exact ⟨h.1, by rw [h.2]; rfl⟩

/-- Modelled from the spec: ensure_tuple (monai/utils/misc.py, not under src/): a
non-sequence value (None included) is wrapped in a one-element tuple, a sequence is
handed through unchanged. -/
def ensureTupleQ : Option (List (Option ℚ)) → List (Option ℚ)
  | Option.none => [Option.none]
  | Option.some xs => xs

/-- Configuration of RandAffineGrid after the ensure_tuple calls of its constructor
(transforms.py lines 375-378). A None entry inside a range skips that axis. -/
structure RAGConfig where
  rotate_range : List (Option ℚ)
  shear_range : List (Option ℚ)
  translate_range : List (Option ℚ)
  scale_range : List (Option ℚ)

/-- RandAffineGrid construction from user arguments (ensure_tuple applied). -/
def RAGConfig.ofUser (r sh t sc : Option (List (Option ℚ))) : RAGConfig :=
  ⟨ensureTupleQ r, ensureTupleQ sh, ensureTupleQ t, ensureTupleQ sc⟩

/-- The four sampled parameter fields of RandAffineGrid; randomize reassigns a field
only when its range group is truthy. -/
structure RAGParams where
  rotate_params : Option (List ℚ)
  shear_params : Option (List ℚ)
  translate_params : Option (List ℚ)
  scale_params : Option (List ℚ)

/-- Parameter fields of a freshly constructed RandAffineGrid (lines 380-383). -/
def RAGParams.init : RAGParams :=
  ⟨Option.none, Option.none, Option.none, Option.none⟩

/-- The list comprehension [post(R.uniform(-f, f)) for f in rng if f is not None]
starting at stream position k: one uniform draw per non-None entry, in sequence
order; returns the values and the next free stream position. -/
def sampleGroup (g : ℕ → ℚ) (post : ℚ → ℚ) : ℕ → List (Option ℚ) → List ℚ × ℕ
  | k, [] => ([], k)
  | k, Option.none :: rest => sampleGroup g post k rest
  | k, Option.some f :: rest =>
      let tail := sampleGroup g post (k + 1) rest
      (post (drawUniform g k (-f) f) :: tail.1, tail.2)

/-- RandAffineGrid.randomize (transforms.py lines 388-396): for each truthy range
group, in the fixed order rotate, shear, translate, scale, draw uniform(-f, f) per
non-None axis entry (the scale group adds 1.0); a falsy range group leaves the
previous parameter value in place and consumes no draws. Returns the new fields and
the next free stream position. -/
def ragRandomize (cfg : RAGConfig) (st : RAGParams) (g : ℕ → ℚ) (k : ℕ) :
    RAGParams × ℕ :=
  let r := if cfg.rotate_range.isEmpty then (st.rotate_params, k)
    else
      let s := sampleGroup g id k cfg.rotate_range
      (Option.some s.1, s.2)
  let sh := if cfg.shear_range.isEmpty then (st.shear_params, r.2)
    else
      let s := sampleGroup g id r.2 cfg.shear_range
      (Option.some s.1, s.2)
  let t := if cfg.translate_range.isEmpty then (st.translate_params, sh.2)
    else
      let s := sampleGroup g id sh.2 cfg.translate_range
      (Option.some s.1, s.2)
  let sc := if cfg.scale_range.isEmpty then (st.scale_params, t.2)
    else
      let s := sampleGroup g (fun v => v + 1) t.2 cfg.scale_range
      (Option.some s.1, s.2)
  (⟨r.1, sh.1, t.1, sc.1⟩, sc.2)

/-- The non-None entries of a range group. -/
def nnone (l : List (Option ℚ)) : List ℚ := l.filterMap id

/-- Closed form of one sampled group: the i-th non-None entry f yields
post(uniform(-f, f)) from stream position k + i. -/
def groupLaw (g : ℕ → ℚ) (post : ℚ → ℚ) (k : ℕ) (l : List (Option ℚ)) : List ℚ :=
  (nnone l).mapIdx fun i f => post (drawUniform g (k + i) (-f) f)

/-- Draws consumed by one range group: none when falsy, one per non-None entry. -/
def grpLen (l : List (Option ℚ)) : ℕ := if l.isEmpty then 0 else (nnone l).length

/-- sampleGroup computes the closed-form group law and advances the stream by one
position per non-None entry. -/
theorem sampleGroup_eq (g : ℕ → ℚ) (post : ℚ → ℚ) :
    ∀ (l : List (Option ℚ)) (k : ℕ),
      sampleGroup g post k l = (groupLaw g post k l, k + (nnone l).length) := by
  intro l
  induction l with
  | nil => intro k; simp [sampleGroup, groupLaw, nnone]
  | cons a rest ih =>
      intro k
      cases a with
      | none => simpa [sampleGroup, groupLaw, nnone] using ih k
      | some f =>
          have hsh : List.mapIdx (fun i x => post (drawUniform g (k + 1 + i) (-x) x))
              (List.filterMap id rest) =
              List.mapIdx (fun i x => post (drawUniform g (k + (i + 1)) (-x) x))
                (List.filterMap id rest) := by
            congr 1
            funext i x
            have h2 : k + 1 + i = k + (i + 1) := by omega
            rw [h2]
          simp [sampleGroup, ih (k + 1), groupLaw, nnone, List.mapIdx_cons]
          exact ⟨hsh, by omega⟩

/-- Claim C5: RandAffineGrid.randomize samples, per truthy range group in the fixed
order rotate, shear, translate, scale, one uniform(-f, f) value for each non-None
axis entry f taken in sequence order (None entries are skipped and consume no
draw), the scale group adding the 1.0 identity baseline to each draw; a falsy group
keeps the previous parameters. Consequently a configured scale range whose entries
are all 0 yields sampled scale factors that are all exactly 1.0, for every stream. -/
theorem ragRandomize_sampling_law (cfg : RAGConfig) (st : RAGParams) (g : ℕ → ℚ)
    (k : ℕ) :
    ragRandomize cfg st g k =
      (⟨if cfg.rotate_range.isEmpty then st.rotate_params
          else Option.some (groupLaw g id k cfg.rotate_range),
        if cfg.shear_range.isEmpty then st.shear_params
          else Option.some (groupLaw g id (k + grpLen cfg.rotate_range) cfg.shear_range),
        if cfg.translate_range.isEmpty then st.translate_params
          else Option.some (groupLaw g id
            (k + grpLen cfg.rotate_range + grpLen cfg.shear_range) cfg.translate_range),
        if cfg.scale_range.isEmpty then st.scale_params
          else Option.some (groupLaw g (fun v => v + 1)
            (k + grpLen cfg.rotate_range + grpLen cfg.shear_range +
              grpLen cfg.translate_range) cfg.scale_range)⟩,
        k + grpLen cfg.rotate_range + grpLen cfg.shear_range +
          grpLen cfg.translate_range + grpLen cfg.scale_range) ∧
    (cfg.scale_range.isEmpty = false → (∀ f ∈ nnone cfg.scale_range, f = 0) →
      ∀ x ∈ ((ragRandomize cfg st g k).1.scale_params.getD []), x = 1) := by
  have law : ragRandomize cfg st g k =
      (⟨if cfg.rotate_range.isEmpty then st.rotate_params
          else Option.some (groupLaw g id k cfg.rotate_range),
        if cfg.shear_range.isEmpty then st.shear_params
          else Option.some (groupLaw g id (k + grpLen cfg.rotate_range) cfg.shear_range),
        if cfg.translate_range.isEmpty then st.translate_params
          else Option.some (groupLaw g id
            (k + grpLen cfg.rotate_range + grpLen cfg.shear_range) cfg.translate_range),
        if cfg.scale_range.isEmpty then st.scale_params
          else Option.some (groupLaw g (fun v => v + 1)
            (k + grpLen cfg.rotate_range + grpLen cfg.shear_range +
              grpLen cfg.translate_range) cfg.scale_range)⟩,
        k + grpLen cfg.rotate_range + grpLen cfg.shear_range +
          grpLen cfg.translate_range + grpLen cfg.scale_range) := by
    by_cases h1 : cfg.rotate_range.isEmpty <;>
      by_cases h2 : cfg.shear_range.isEmpty <;>
        by_cases h3 : cfg.translate_range.isEmpty <;>
          by_cases h4 : cfg.scale_range.isEmpty <;>
            simp [ragRandomize, sampleGroup_eq, grpLen, h1, h2, h3, h4, Nat.add_assoc]
  refine ⟨law, ?_⟩
  intro hne hz x hx
  rw [law] at hx
  simp only [hne, Bool.false_eq_true, if_false] at hx
  simp only [Option.getD_some] at hx
  have : ∀ (fs : List ℚ) (m : ℕ), (∀ f ∈ fs, f = 0) →
      ∀ y ∈ fs.mapIdx (fun i f => (fun v => v + 1) (drawUniform g (m + i) (-f) f)),
        y = 1 := by
    intro fs
    induction fs with
    | nil => intro m _ y hy; simp at hy
    | cons f rest ih =>
        intro m hall y hy
        rw [List.mapIdx_cons] at hy
        rcases List.mem_cons.mp hy with hy0 | hy1
        · have hf : f = 0 := hall f (List.mem_cons_self f rest)
          rw [hy0, hf]
          simp [drawUniform]
        · have hshift : (List.mapIdx
              (fun i x => (fun v => v + 1) (drawUniform g (m + (i + 1)) (-x) x)) rest) =
              List.mapIdx (fun i x => (fun v => v + 1) (drawUniform g (m + 1 + i) (-x) x))
                rest := by
            congr 1
            funext i x
            have : m + (i + 1) = m + 1 + i := by omega
            rw [this]
          rw [hshift] at hy1
          exact ih (m + 1) (fun f hf => hall f (List.mem_cons_of_mem _ hf)) y hy1
  exact this (nnone cfg.scale_range) _ hz x hx

/-- Concrete instance of ragRandomize_sampling_law: RandAffineGrid constructed with
only scale_range=(0.0, 0.0) supplied samples scale factors [1, 1]. -/
theorem ragRandomize_sampling_law_instance :
    ((RAGConfig.ofUser Option.none Option.none Option.none
        (Option.some [Option.some 0, Option.some 0])).scale_range.isEmpty = false) ∧
    (ragRandomize (RAGConfig.ofUser Option.none Option.none Option.none
        (Option.some [Option.some 0, Option.some 0])) RAGParams.init
        (fun _ => 1 / 3) 0).1.scale_params = Option.some [1, 1] := by
  have h := (ragRandomize_sampling_law (RAGConfig.ofUser Option.none Option.none
    Option.none (Option.some [Option.some 0, Option.some 0])) RAGParams.init
    (fun _ => 1 / 3) 0).1
  refine ⟨rfl, ?_⟩
  rw [h]
  norm_num [RAGConfig.ofUser, ensureTupleQ, groupLaw, nnone, grpLen, drawUniform,
    List.mapIdx_cons, List.filterMap_cons]

/-- Convert an optional sampled parameter list to the Python value handed to
AffineGrid (None or a list). -/
def toPyParam : Option (List ℚ) → PyParam
  | Option.none => PyParam.none
  | Option.some xs => PyParam.seq xs

/-- RandAffineGrid.__call__ (transforms.py lines 398-406) on an explicit 2-D grid:
randomize, then build and apply an AffineGrid holding the sampled parameters.
Returns the transformed grid together with the updated fields and stream position. -/
def ragCall2 {H W : ℕ} (cfg : RAGConfig) (st : RAGParams) (g : ℕ → ℚ) (k : ℕ)
    (grid : Grid2 H W) : Grid2 H W × RAGParams × ℕ :=
  let r := ragRandomize cfg st g k
  (affineGrid2 (toPyParam r.1.rotate_params) (toPyParam r.1.shear_params)
      (toPyParam r.1.translate_params) (toPyParam r.1.scale_params) grid,
    r.1, r.2)

/-- Claim C4 counterexample: RandAffineGrid takes no prob parameter and applies its
freshly sampled parameters on every call, so its output grid does depend on the
range settings: constructed with translate_range=(1.0,) and raw draws all 1, the
sampled shift is 1 and the output grid is not the identity grid (entry (0,0,0) is
1/2 instead of -1/2). -/
theorem randAffineGrid_output_depends_on_ranges :
    (ragCall2 (RAGConfig.ofUser Option.none Option.none
        (Option.some [Option.some 1]) Option.none) RAGParams.init (fun _ => 1) 0
      (createGrid2 2 2)).1 ≠ createGrid2 2 2 := by
  intro hEq
  have h0 := congrFun (congrFun (congrFun hEq 0) 0) 0
  norm_num [ragCall2, ragRandomize, sampleGroup, RAGConfig.ofUser, ensureTupleQ,
    toPyParam, PyParam.toList, affineGrid2, affineMatrix, PyParam.truthy,
    createTranslate, createGrid2, Fin.sum_univ_three, drawUniform, Matrix.one_mul,
    List.getD, Fin.ext_iff] at h0

/-- Modelled from the spec: create_control_grid (monai/transforms/utils.py, not
under src/): a coarse centred grid at the given spacing covering the volume with a
margin of control points. The spec fixes only the shape (D+1, *ctrl) and
"subsampled by a spacing factor"; no claim depends on the exact control-point
count. -/
def ctrlSize (d s : ℕ) : ℕ := d / max s 1 + 3

/-- Modelled from the spec: the 2-D control grid returned by the Coordinate Grid
Builder: centred coordinates scaled by the spacing, homogeneous last row. -/
def createControlGrid2 (H W sh sw : ℕ) : Grid2 (ctrlSize H sh) (ctrlSize W sw) :=
  fun r h w =>
    if r.val = 0 then ((h.val : ℚ) - ((ctrlSize H sh : ℚ) - 1) / 2) * (max sh 1 : ℚ)
    else if r.val = 1 then ((w.val : ℚ) - ((ctrlSize W sw : ℚ) - 1) / 2) * (max sw 1 : ℚ)
    else 1

/-- RandDeformGrid.__call__ with its randomize (transforms.py lines 435-445), 2-D:
build the control grid, draw a normal offset field of shape (2, *ctrl) (raw stream
values, row-major), then one scalar magnitude uniform in the magnitude range, and
add magnitude * offset to the two coordinate rows in place. -/
def randDeformGrid2 (sh sw : ℕ) (mag : ℚ × ℚ) (g : ℕ → ℚ) (H W : ℕ) :
    Grid2 (ctrlSize H sh) (ctrlSize W sw) :=
  let ch := ctrlSize H sh
  let cw := ctrlSize W sw
  let offset : Fin 3 → Fin ch → Fin cw → ℚ := fun r h w =>
    g ((r.val * ch + h.val) * cw + w.val)
  let randMag := drawUniform g (2 * (ch * cw)) mag.1 mag.2
  let ctrl := createControlGrid2 H W sh sw
  fun r h w => if r.val < 2 then ctrl r h w + randMag * offset r h w else ctrl r h w

/-- Claim C8: RandDeformGrid returns the Coordinate Grid Builder's control grid with
magnitude * offset added to the two coordinate rows only (the homogeneous row is
untouched), where the offset is the normal field of shape (2, *ctrl) drawn first
(stream positions 0 .. 2*ch*cw - 1, row-major) and the magnitude is the single
scalar uniform draw from the magnitude range taken right after it (position
2*ch*cw); with magnitude_range = (0, 0) the result is exactly the unperturbed
control grid, for every stream. -/
theorem randDeformGrid_perturbation_law (sh sw : ℕ) (mag : ℚ × ℚ) (g : ℕ → ℚ)
    (H W : ℕ) :
    (∀ h w, randDeformGrid2 sh sw mag g H W 2 h w = createControlGrid2 H W sh sw 2 h w) ∧
    (∀ r h w, r.val < 2 → randDeformGrid2 sh sw mag g H W r h w =
      createControlGrid2 H W sh sw r h w +
        drawUniform g (2 * (ctrlSize H sh * ctrlSize W sw)) mag.1 mag.2 *
          g ((r.val * ctrlSize H sh + h.val) * ctrlSize W sw + w.val)) ∧
    (mag = (0, 0) → randDeformGrid2 sh sw mag g H W = createControlGrid2 H W sh sw) := by
  refine ⟨?_, ?_, ?_⟩
  · intro h w
    simp [randDeformGrid2]
  · intro r h w hr
    simp [randDeformGrid2, hr]
  · rintro rfl
    funext r h w
    by_cases hr : r.val < 2 <;> simp [randDeformGrid2, hr, drawUniform]

/-- Concrete instance of randDeformGrid_perturbation_law: spacing (1,1), magnitude
range (0,0): the deformation grid equals the unperturbed control grid, its
homogeneous row is all ones, and the perturbation formula holds at (0,0,0). -/
theorem randDeformGrid_perturbation_law_instance :
    randDeformGrid2 1 1 (0, 0) (fun _ => 1) 4 4 = createControlGrid2 4 4 1 1 ∧
    randDeformGrid2 1 1 (0, 0) (fun _ => 1) 4 4 2 ⟨0, by decide⟩ ⟨0, by decide⟩ = 1 ∧
    randDeformGrid2 1 1 (0, 0) (fun _ => 1) 4 4 0 ⟨0, by decide⟩ ⟨0, by decide⟩ =
      createControlGrid2 4 4 1 1 0 ⟨0, by decide⟩ ⟨0, by decide⟩ +
        drawUniform (fun _ => 1) (2 * (ctrlSize 4 1 * ctrlSize 4 1)) 0 0 * 1 := by
  have h := randDeformGrid_perturbation_law 1 1 (0, 0) (fun _ => 1) 4 4
  refine ⟨h.2.2 rfl, ?_, h.2.1 0 ⟨0, by decide⟩ ⟨0, by decide⟩ (by decide)⟩
  rw [h.2.2 rfl]
  simp [createControlGrid2]

/-- Channel-first 3-D image of shape (C, H, W, D). -/
def Image3 (C H W D : ℕ) := Fin C → Fin H → Fin W → Fin D → ℚ

/-- Homogeneous 3-D coordinate grid of shape (4, H, W, D). -/
def Grid3 (H W D : ℕ) := Fin 4 → Fin H → Fin W → Fin D → ℚ

/-- Modelled from the spec: 3-D instance of create_grid, see createGrid2. -/
def createGrid3 (H W D : ℕ) : Grid3 H W D := fun r h w d =>
  if r.val = 0 then (h.val : ℚ) - ((H : ℚ) - 1) / 2
  else if r.val = 1 then (w.val : ℚ) - ((W : ℚ) - 1) / 2
  else if r.val = 2 then (d.val : ℚ) - ((D : ℚ) - 1) / 2
  else 1

/-- AffineGrid.__call__ applied to a 3-D grid, see affineGrid2. -/
def affineGrid3 {H W D : ℕ} (r sh t sc : PyParam) (grid : Grid3 H W D) :
    Grid3 H W D := fun i h w d =>
  Finset.univ.sum fun k : Fin 4 => affineMatrix 3 r sh t sc i k * grid k h w d

/-- RandAffineGrid.__call__ on an explicit 3-D grid, see ragCall2. -/
def ragCall3 {H W D : ℕ} (cfg : RAGConfig) (st : RAGParams) (g : ℕ → ℚ) (k : ℕ)
    (grid : Grid3 H W D) : Grid3 H W D × RAGParams × ℕ :=
  let r := ragRandomize cfg st g k
  (affineGrid3 (toPyParam r.1.rotate_params) (toPyParam r.1.shear_params)
      (toPyParam r.1.translate_params) (toPyParam r.1.scale_params) grid,
    r.1, r.2)

/-- Bounds-checked voxel fetch of torch grid_sample (within_bounds_3d). -/
def pix3 {C H W D : ℕ} (img : Image3 C H W D) (c : Fin C) (iz iy ix : ℤ) : ℚ :=
  if h : 0 ≤ iz ∧ iz < (H : ℤ) ∧ 0 ≤ iy ∧ iy < (W : ℤ) ∧ 0 ≤ ix ∧ ix < (D : ℤ) then
    img c ⟨iz.toNat, by omega⟩ ⟨iy.toNat, by omega⟩ ⟨ix.toNat, by omega⟩
  else 0

/-- torch.nn.functional.grid_sample (3-D), modelled from its documented contract
with align_corners=False: cell (h, w, d) of coords carries normalized (x, y, z), x
indexing the innermost image axis D and z the outermost spatial axis H; bilinear
here is the trilinear blend of the eight surrounding voxels. -/
def gridSample3 {C H W D Oh Ow Od : ℕ} (img : Image3 C H W D)
    (coords : Fin Oh → Fin Ow → Fin Od → ℚ × ℚ × ℚ) (mode : InterpMode)
    (pad : PadMode) : Image3 C Oh Ow Od := fun c h w d =>
  let ix := sourceIndex pad D (coords h w d).1
  let iy := sourceIndex pad W (coords h w d).2.1
  let iz := sourceIndex pad H (coords h w d).2.2
  match mode with
  | InterpMode.bilinear =>
      let x0 := ⌊ix⌋
      let y0 := ⌊iy⌋
      let z0 := ⌊iz⌋
      let tx := ix - x0
      let ty := iy - y0
      let tz := iz - z0
      (1 - tz) *
          ((1 - ty) * ((1 - tx) * pix3 img c z0 y0 x0 + tx * pix3 img c z0 y0 (x0 + 1)) +
            ty * ((1 - tx) * pix3 img c z0 (y0 + 1) x0 +
              tx * pix3 img c z0 (y0 + 1) (x0 + 1))) +
        tz *
          ((1 - ty) * ((1 - tx) * pix3 img c (z0 + 1) y0 x0 +
              tx * pix3 img c (z0 + 1) y0 (x0 + 1)) +
            ty * ((1 - tx) * pix3 img c (z0 + 1) (y0 + 1) x0 +
              tx * pix3 img c (z0 + 1) (y0 + 1) (x0 + 1)))
  | InterpMode.nearest =>
      pix3 img c (roundHalfEven iz) (roundHalfEven iy) (roundHalfEven ix)

/-- Resample.__call__ (transforms.py lines 464-491), 3-D instance, see
resample2Run: rows 0..2 are normalized in place over the image dims H, W, D, the
homogeneous row 3 divides them, the rows are reversed and moved last for
grid_sample. -/
def resample3Run {C H W D Oh Ow Od : ℕ} (img : Image3 C H W D)
    (grid : Grid3 Oh Ow Od) (mode : InterpMode) (pad : PadMode)
    (isTensor deviceSet : Bool) : Image3 C Oh Ow Od × Grid3 Oh Ow Od :=
  let g1 : Grid3 Oh Ow Od := fun r h w d =>
    if r.val = 0 then 2 * grid r h w d / ((H : ℚ) - 1)
    else if r.val = 1 then 2 * grid r h w d / ((W : ℚ) - 1)
    else if r.val = 2 then 2 * grid r h w d / ((D : ℚ) - 1)
    else grid r h w d
  let g2 : Fin 3 → Fin Oh → Fin Ow → Fin Od → ℚ := fun r h w d =>
    g1 (Fin.castLE (by omega) r) h w d / g1 3 h w d
  let g3 : Fin 3 → Fin Oh → Fin Ow → Fin Od → ℚ := fun r h w d =>
    g2 ⟨2 - r.val, by omega⟩ h w d
  let coords : Fin Oh → Fin Ow → Fin Od → ℚ × ℚ × ℚ := fun h w d =>
    (g3 0 h w d, g3 1 h w d, g3 2 h w d)
  (gridSample3 img coords mode pad, if isTensor && !deviceSet then g1 else grid)

/-- Resample.__call__ resampled image, 3-D (first component of resample3Run). -/
def resample3 {C H W D Oh Ow Od : ℕ} (img : Image3 C H W D) (grid : Grid3 Oh Ow Od)
    (mode : InterpMode) (pad : PadMode) : Image3 C Oh Ow Od :=
  (resample3Run img grid mode pad true false).1

/-- RandAffine.__call__ with its randomize (transforms.py lines 587-604), 2-D: draw
the do-transform decision from the orchestrator's own source; when true delegate to
the nested RandAffineGrid at the output size, otherwise resample against the
identity grid built directly by the Coordinate Grid Builder. g drives the
orchestrator's seeded source, gRag the nested RandAffineGrid's. -/
def randAffineCall2 {C H W : ℕ} (prob : ℚ) (cfg : RAGConfig) (st : RAGParams)
    (pad : PadMode) (img : Image2 C H W) (Oh Ow : ℕ) (mode : InterpMode)
    (g gRag : ℕ → ℚ) : Image2 C Oh Ow :=
  if g 0 < prob then
    resample2 img (ragCall2 cfg st gRag 0 (createGrid2 Oh Ow)).1 mode pad
  else
    resample2 img (createGrid2 Oh Ow) mode pad

/-- RandAffine.__call__, 3-D instance, see randAffineCall2. -/
def randAffineCall3 {C H W D : ℕ} (prob : ℚ) (cfg : RAGConfig) (st : RAGParams)
    (pad : PadMode) (img : Image3 C H W D) (Oh Ow Od : ℕ) (mode : InterpMode)
    (g gRag : ℕ → ℚ) : Image3 C Oh Ow Od :=
  if g 0 < prob then
    resample3 img (ragCall3 cfg st gRag 0 (createGrid3 Oh Ow Od)).1 mode pad
  else
    resample3 img (createGrid3 Oh Ow Od) mode pad

/-- torch cubic convolution helper for the inner taps (A = -3/4). -/
def cubicConv1 (t : ℚ) : ℚ := ((-3 / 4 + 2) * t - (-3 / 4 + 3)) * t * t + 1

/-- torch cubic convolution helper for the outer taps (A = -3/4). -/
def cubicConv2 (t : ℚ) : ℚ :=
  ((-3 / 4 * t - 5 * (-3 / 4)) * t + 8 * (-3 / 4)) * t - 4 * (-3 / 4)

/-- The four bicubic tap weights at fractional position t
(torch get_cubic_upsample_coefficients). -/
def bicubicW (t : ℚ) : Fin 4 → ℚ :=
  ![cubicConv2 (t + 1), cubicConv1 t, cubicConv1 (1 - t), cubicConv2 (2 - t)]

/-- align_corners=False source position of torch interpolate: scale = in/out,
src = (j + 1/2) * scale - 1/2. -/
def upsampleSrc (n m : ℕ) (j : ℕ) : ℚ := ((j : ℚ) + 1 / 2) * ((n : ℚ) / (m : ℚ)) - 1 / 2

/-- Border-clamped read used by torch bicubic upsampling
(upsample_get_value_bounded). -/
def getBounded2 {H W : ℕ} (f : Fin H → Fin W → ℚ) (i j : ℤ) : ℚ :=
  if hh : 0 < H ∧ 0 < W then
    f ⟨(min (max i 0) ((H : ℤ) - 1)).toNat, by omega⟩
      ⟨(min (max j 0) ((W : ℤ) - 1)).toNat, by omega⟩
  else 0

/-- torch.nn.functional.interpolate mode bicubic, align_corners=False, per channel
on a 2-D grid: separable 4x4 cubic convolution with border-clamped reads, modelled
from the library's documented contract (used only inside Rand2DElastic's transform
branch; no claim evaluates its values). -/
def upsampleBicubic2 {H W : ℕ} (grid : Grid2 H W) (Oh Ow : ℕ) : Grid2 Oh Ow :=
  fun r h w =>
    let sy := upsampleSrc H Oh h.val
    let sx := upsampleSrc W Ow w.val
    let y0 := ⌊sy⌋
    let x0 := ⌊sx⌋
    Finset.univ.sum fun a : Fin 4 =>
      Finset.univ.sum fun b : Fin 4 =>
        bicubicW (sy - y0) a * bicubicW (sx - x0) b *
          getBounded2 (fun i j => grid r i j) (y0 + (a.val : ℤ) - 1) (x0 + (b.val : ℤ) - 1)

/-- Rand2DElastic.__call__ with its randomize (transforms.py lines 654-671): draw
the do-transform decision; when true build the deformation control grid, apply the
random affine on top of it, bicubic-upsample the result to the output size;
otherwise take the identity grid; finally resample the image. g, gDeform and gRag
drive the orchestrator's, RandDeformGrid's and RandAffineGrid's seeded sources. -/
def rand2DElasticCall {C H W : ℕ} (spacing : ℕ × ℕ) (mag : ℚ × ℚ) (prob : ℚ)
    (cfg : RAGConfig) (st : RAGParams) (pad : PadMode) (img : Image2 C H W)
    (Oh Ow : ℕ) (mode : InterpMode) (g gDeform gRag : ℕ → ℚ) : Image2 C Oh Ow :=
  if g 0 < prob then
    let ctrl := randDeformGrid2 spacing.1 spacing.2 mag gDeform Oh Ow
    let ctrl2 := (ragCall2 cfg st gRag 0 ctrl).1
    resample2 img (upsampleBicubic2 ctrl2 Oh Ow) mode pad
  else
    resample2 img (createGrid2 Oh Ow) mode pad

/-- Truncated exponential series, the computable stand-in for exp inside the
modelled Gaussian kernel (scipy.ndimage gaussian_filter is an external library; no
claim depends on these numeric values). -/
def expQ (x : ℚ) : ℚ := Finset.sum (Finset.range 12) fun k => x ^ k / (Nat.factorial k : ℚ)

/-- Modelled from the library contract: scipy's Gaussian kernel radius
int(truncate * sigma + 0.5) with the default truncate = 4. -/
def gaussRadius (s : ℚ) : ℕ := (⌊4 * s + 1 / 2⌋).toNat

/-- Modelled from the library contract: normalized Gaussian weight at integer
offset t for standard deviation s. -/
def gaussWeight (s : ℚ) (t : ℤ) : ℚ :=
  expQ (-((t : ℚ) ^ 2) / (2 * s ^ 2)) /
    Finset.sum (Finset.Icc (-(gaussRadius s : ℤ)) (gaussRadius s : ℤ)) fun u =>
      expQ (-((u : ℚ) ^ 2) / (2 * s ^ 2))

/-- Zero-padded access to a 3-D scalar field (gaussian_filter mode constant,
cval 0). -/
def fget {H W D : ℕ} (f : Fin H → Fin W → Fin D → ℚ) (i j k : ℤ) : ℚ :=
  if h : 0 ≤ i ∧ i < (H : ℤ) ∧ 0 ≤ j ∧ j < (W : ℤ) ∧ 0 ≤ k ∧ k < (D : ℤ) then
    f ⟨i.toNat, by omega⟩ ⟨j.toNat, by omega⟩ ⟨k.toNat, by omega⟩
  else 0

/-- Modelled from the library contract: separable Gaussian smoothing of a 3-D field
with zero-constant boundary, written as the equivalent product-kernel convolution
(used only inside Rand3DElastic's transform branch; no claim evaluates its
values). -/
def gaussSmooth3 {H W D : ℕ} (s : ℚ) (f : Fin H → Fin W → Fin D → ℚ) :
    Fin H → Fin W → Fin D → ℚ := fun h w d =>
  Finset.sum (Finset.Icc (-(gaussRadius s : ℤ)) (gaussRadius s : ℤ)) fun a =>
    Finset.sum (Finset.Icc (-(gaussRadius s : ℤ)) (gaussRadius s : ℤ)) fun b =>
      Finset.sum (Finset.Icc (-(gaussRadius s : ℤ)) (gaussRadius s : ℤ)) fun c =>
        gaussWeight s a * gaussWeight s b * gaussWeight s c *
          fget f ((h.val : ℤ) + a) ((w.val : ℤ) + b) ((d.val : ℤ) + c)

/-- The mutable randomized fields of Rand3DElastic (initialized in lines 716-719). -/
structure R3EState where
  do_transform : Bool
  rand_offset : Option (List ℚ)
  magnitude : ℚ
  sigma : ℚ

/-- Fields of a freshly constructed Rand3DElastic. -/
def R3EState.init : R3EState := ⟨false, Option.none, 1, 1⟩

/-- Rand3DElastic.randomize (transforms.py lines 726-731): draw the do-transform
decision; only when it is true draw the uniform [-1, 1] offset field of shape
(3, *grid_size), consuming 3*H*W*D raw draws row-major; then always draw the
magnitude from magnitude_range and then always the sigma from sigma_range. Returns
the new state and the next free stream position. -/
def r3eRandomize (prob : ℚ) (magR sigR : ℚ × ℚ) (gridSize : ℕ × ℕ × ℕ)
    (st : R3EState) (g : ℕ → ℚ) (k : ℕ) : R3EState × ℕ :=
  let doT := decide (g k < prob)
  let n := 3 * (gridSize.1 * (gridSize.2.1 * gridSize.2.2))
  let offres := if doT then
      (Option.some ((List.range n).map fun i => drawUniform g (k + 1 + i) (-1) 1),
        k + 1 + n)
    else (st.rand_offset, k + 1)
  let mag := drawUniform g offres.2 magR.1 magR.2
  let sig := drawUniform g (offres.2 + 1) sigR.1 sigR.2
  (⟨doT, offres.1, mag, sig⟩, offres.2 + 2)

/-- Rand3DElastic.__call__ (transforms.py lines 733-746): randomize over the output
spatial size; build the identity grid; when transforming add the Gaussian-smoothed,
magnitude-scaled offset field to the three coordinate rows and apply the random
affine on top; finally resample. g drives the orchestrator's source, gRag the
nested RandAffineGrid's. -/
def rand3DElasticCall {C H W D : ℕ} (sigR magR : ℚ × ℚ) (prob : ℚ) (cfg : RAGConfig)
    (st : R3EState) (ragSt : RAGParams) (pad : PadMode) (img : Image3 C H W D)
    (Oh Ow Od : ℕ) (mode : InterpMode) (g gRag : ℕ → ℚ) : Image3 C Oh Ow Od :=
  let r := r3eRandomize prob magR sigR (Oh, Ow, Od) st g 0
  let st2 := r.1
  let base := createGrid3 Oh Ow Od
  if st2.do_transform then
    let offList := st2.rand_offset.getD []
    let offField : Fin 3 → Fin Oh → Fin Ow → Fin Od → ℚ := fun i h w d =>
      offList.getD ((((i.val * Oh + h.val) * Ow + w.val) * Od) + d.val) 0
    let grid : Grid3 Oh Ow Od := fun rr h w d =>
      if hrr : rr.val < 3 then
        base rr h w d + gaussSmooth3 st2.sigma (offField ⟨rr.val, hrr⟩) h w d * st2.magnitude
      else base rr h w d
    resample3 img (ragCall3 cfg ragSt gRag 0 grid).1 mode pad
  else resample3 img base mode pad

/-- Claim C6: on every call Rand3DElastic.randomize consumes draws in exactly the
fixed order: the do-transform decision at position k; only when the decision is
true the uniform [-1,1] offset field of shape (3, *grid_size) at the 3*H*W*D
positions after it; then always the magnitude and then always the sigma, drawn from
the two positions right after whatever was consumed before them -- also on calls
where the offset-field draw is skipped. -/
theorem r3eRandomize_draw_order (prob : ℚ) (magR sigR : ℚ × ℚ)
    (gridSize : ℕ × ℕ × ℕ) (st : R3EState) (g : ℕ → ℚ) (k : ℕ) :
    r3eRandomize prob magR sigR gridSize st g k =
      (if g k < prob then
        (⟨true,
          Option.some ((List.range (3 * (gridSize.1 * (gridSize.2.1 * gridSize.2.2)))).map
            fun i => drawUniform g (k + 1 + i) (-1) 1),
          drawUniform g (k + 1 + 3 * (gridSize.1 * (gridSize.2.1 * gridSize.2.2)))
            magR.1 magR.2,
          drawUniform g (k + 1 + 3 * (gridSize.1 * (gridSize.2.1 * gridSize.2.2)) + 1)
            sigR.1 sigR.2⟩,
          k + 1 + 3 * (gridSize.1 * (gridSize.2.1 * gridSize.2.2)) + 2)
      else
        (⟨false, st.rand_offset, drawUniform g (k + 1) magR.1 magR.2,
          drawUniform g (k + 1 + 1) sigR.1 sigR.2⟩, k + 1 + 2)) := by
  by_cases hp : g k < prob <;> simp [r3eRandomize, hp]

/-- Claim C4 (amended): RandAffine (2-D and 3-D), Rand2DElastic and Rand3DElastic
constructed with prob=0 never take the transform branch (the do-transform draw u is
in [0, 1) and u < 0 fails), so every call resamples against the identity grid from
the Coordinate Grid Builder and the output is independent of the configured
rotate/shear/translate/scale (and magnitude/sigma) range settings. RandAffineGrid
itself has no prob parameter and always applies freshly sampled parameters, see
randAffineGrid_output_depends_on_ranges. -/
theorem prob_zero_orchestrators_use_identity_grid {C H W D : ℕ}
    (cfg cfg2 cfg3 cfg4 : RAGConfig) (st : RAGParams) (st3 : R3EState)
    (ragSt : RAGParams) (spacing : ℕ × ℕ) (mag magR sigR : ℚ × ℚ) (pad : PadMode)
    (mode : InterpMode) (img2 : Image2 C H W) (img3 : Image3 C H W D) (Oh Ow Od : ℕ)
    (g gR gD g2 g3 g4 : ℕ → ℚ)
    (h0 : 0 ≤ g 0) (h2 : 0 ≤ g2 0) (h3 : 0 ≤ g3 0) (h4 : 0 ≤ g4 0) :
    randAffineCall2 0 cfg st pad img2 Oh Ow mode g gR =
      resample2 img2 (createGrid2 Oh Ow) mode pad ∧
    randAffineCall3 0 cfg4 st pad img3 Oh Ow Od mode g4 gR =
      resample3 img3 (createGrid3 Oh Ow Od) mode pad ∧
    rand2DElasticCall spacing mag 0 cfg2 st pad img2 Oh Ow mode g2 gD gR =
      resample2 img2 (createGrid2 Oh Ow) mode pad ∧
    rand3DElasticCall sigR magR 0 cfg3 st3 ragSt pad img3 Oh Ow Od mode g3 gR =
      resample3 img3 (createGrid3 Oh Ow Od) mode pad := by
  refine ⟨?_, ?_, ?_, ?_⟩
  · simp [randAffineCall2, not_lt.mpr h0]
  · simp [randAffineCall3, not_lt.mpr h4]
  · simp [rand2DElasticCall, not_lt.mpr h2]
  · have hd : ¬ (g3 0 < (0 : ℚ)) := not_lt.mpr h3
    simp [rand3DElasticCall, r3eRandomize, hd]

/-- Concrete instance of prob_zero_orchestrators_use_identity_grid at a (1,2,2)
image, half-draws and default-like settings. -/
theorem prob_zero_orchestrators_use_identity_grid_instance :
    randAffineCall2 0 (RAGConfig.ofUser Option.none Option.none Option.none Option.none)
        RAGParams.init PadMode.zeros (ones2 1 2 2) 2 2 InterpMode.nearest
        (fun _ => 1 / 2) (fun _ => 1 / 2) =
      resample2 (ones2 1 2 2) (createGrid2 2 2) InterpMode.nearest PadMode.zeros :=
  (prob_zero_orchestrators_use_identity_grid
    (RAGConfig.ofUser Option.none Option.none Option.none Option.none)
    (RAGConfig.ofUser Option.none Option.none Option.none Option.none)
    (RAGConfig.ofUser Option.none Option.none Option.none Option.none)
    (RAGConfig.ofUser Option.none Option.none Option.none Option.none)
    RAGParams.init R3EState.init RAGParams.init (1, 1) (0, 0) (0, 0) (0, 0)
    PadMode.zeros InterpMode.nearest (ones2 1 2 2)
    (fun _ _ _ _ => 1 : Image3 1 2 2 2) 2 2 2
    (fun _ => 1 / 2) (fun _ => 1 / 2) (fun _ => 1 / 2) (fun _ => 1 / 2)
    (fun _ => 1 / 2) (fun _ => 1 / 2)
    (by norm_num) (by norm_num) (by norm_num) (by norm_num)).1

end Monai
